import Mathlib

/-!
Verification of the SQL fragment builder (src/main.rs).

The program renders typed values to SQL literal text and assembles
SELECT / FROM / WHERE query fragments.  We embed:

* `snake_case` (the identifier normalizer), parameterized by a
  `CharModel` supplying the character classification and lowercase
  expansion used by the source (`char::is_uppercase`,
  `char::is_lowercase`, `char::to_lowercase`); characters are modelled
  as Unicode code points (`Nat`).  `ascii` is the concrete instance
  covering the ASCII range, enough for the examples in the spec.
* the `ToSql` capability as functions on a closed value type `SqlVal`
  whose constructors are the trait impls that exist in the source
  (numeric, string, chrono date / datetime, `Option`, `Vec`).
* `SQLFilter` / `apply_filter` and `SQLable` / `prepare`.
-/

/-- Character operations used by `snake_case`: classification and
(possibly multi-character) lowercase expansion, on code points. -/
structure CharModel where
  is_uppercase : Nat → Bool
  is_lowercase : Nat → Bool
  to_lowercase : Nat → List Nat

/-- Code point of the underscore character. -/
def underscore : Nat := 95

/-- The loop body of `snake_case`: `prev` is the previous input
character (initialized to `'_'`); for each character, push `'_'` when
it is uppercase and `prev` is lowercase, then push its lowercase
expansion. -/
def snake_case_loop (M : CharModel) : Nat → List Nat → List Nat
  | _, [] => []
  | prev, c :: rest =>
    (if M.is_uppercase c && M.is_lowercase prev then [underscore] else [])
      ++ M.to_lowercase c ++ snake_case_loop M c rest

/-- Embeds `snake_case` from the source: iterate over the characters
with `prev_char` starting at `'_'`. -/
def snake_case (M : CharModel) (s : List Nat) : List Nat :=
  snake_case_loop M underscore s

/-- The ASCII instantiation of the character model: uppercase is
`A`-`Z`, lowercase is `a`-`z`, lowercasing adds 32 to an uppercase
code point and is the identity elsewhere. -/
def ascii : CharModel where
  is_uppercase c := decide (65 ≤ c ∧ c ≤ 90)
  is_lowercase c := decide (97 ≤ c ∧ c ≤ 122)
  to_lowercase c := if 65 ≤ c ∧ c ≤ 90 then [c + 32] else [c]

/-- Convert a Lean string to the code-point list our model works on. -/
def str_codes (s : String) : List Nat := s.data.map Char.toNat

/-- Convert a code-point list back to a Lean string. -/
def codes_str (l : List Nat) : String := ⟨l.map Char.ofNat⟩

/-- `snake_case` acting on strings (used by the assembler). -/
def snake_case_str (M : CharModel) (s : String) : String :=
  codes_str (snake_case M (str_codes s))

/-- The single-quote character as a string. -/
def squote : String := String.singleton (Char.ofNat 39)

/-- Embeds `quote`: wrap a string in single quotes, with no escaping. -/
def quote (x : String) : String := squote ++ x ++ squote

/-- A calendar date, the data `chrono` formats with `%Y-%m-%d`. -/
structure CalDate where
  year : Nat
  month : Nat
  day : Nat
deriving DecidableEq

/-- A date-time: a calendar date plus a time of day. -/
structure CalDateTime where
  date : CalDate
  hour : Nat
  minute : Nat
  second : Nat
deriving DecidableEq

/-- Left-pad the decimal representation of `n` with zeros to width `w`
(the behavior of chrono `%Y` / `%m` / `%d` for the in-range values the
model covers). -/
def pad_nat (w : Nat) (n : Nat) : String :=
  let s := toString n
  String.mk (List.replicate (w - s.length) (Char.ofNat 48)) ++ s

/-- Format a calendar date as `YYYY-MM-DD`. -/
def format_ymd (d : CalDate) : String :=
  pad_nat 4 d.year ++ "-" ++ pad_nat 2 d.month ++ "-" ++ pad_nat 2 d.day

/-- The closed type of renderable values: one constructor per `ToSql`
impl in the source (integer numerics, strings, `chrono::Date`,
`chrono::DateTime`, `Option`, `Vec`). -/
inductive SqlVal where
  | int (n : Int)
  | str (s : String)
  | date (d : CalDate)
  | datetime (t : CalDateTime)
  | opt (o : Option SqlVal)
  | vec (l : List SqlVal)

/-- Embeds `Vec<T>::to_sql` after the elements are rendered: a single
element is returned bare, otherwise the list is comma-joined and
parenthesized (an empty list gives `()`). -/
def vec_render : List String → String
  | [x] => x
  | v => "(" ++ String.intercalate "," v ++ ")"

mutual

/-- Embeds `to_sql`, dispatching exactly as the trait impls do:
numerics print their decimal form, strings are quoted, dates and
date-times print the quoted `%Y-%m-%d` form of the date component,
`None` is `NULL`, `Some` delegates to the wrapped value, and `Vec`
renders through `vec_render`. -/
def to_sql : SqlVal → String
  | .int n => toString n
  | .str s => quote s
  | .date d => quote (format_ymd d)
  | .datetime t => quote (format_ymd t.date)
  | .opt none => "NULL"
  | .opt (some v) => to_sql v
  | .vec l => vec_render (to_sql_list l)

/-- Renders each element of a list (the `map` inside `Vec::to_sql`). -/
def to_sql_list : List SqlVal → List String
  | [] => []
  | v :: rest => to_sql v :: to_sql_list rest

end

/-- Embeds `op_eq`: the `Vec` impl answers `IN` for more than one
element, the `Option` impl answers `IS` for `None`, every other case
uses the trait default `=`. -/
def op_eq : SqlVal → String
  | .vec l => if l.length > 1 then "IN" else "="
  | .opt none => "IS"
  | _ => "="

/-- Embeds `op_neq`: `NOT IN` for a `Vec` of more than one element,
`IS NOT` for `None`, the default `<>` otherwise. -/
def op_neq : SqlVal → String
  | .vec l => if l.length > 1 then "NOT IN" else "<>"
  | .opt none => "IS NOT"
  | _ => "<>"

/-- Embeds `op_gt`: never overridden. -/
def op_gt (_ : SqlVal) : String := ">"

/-- Embeds `op_lt`: never overridden. -/
def op_lt (_ : SqlVal) : String := "<"

/-- Embeds `op_geq`: never overridden. -/
def op_geq (_ : SqlVal) : String := ">="

/-- Embeds `op_leq`: never overridden. -/
def op_leq (_ : SqlVal) : String := "<="

/-- The six comparison kinds (`SQLComp`). -/
inductive SQLComp where
  | EQ
  | NEQ
  | GT
  | LT
  | GEQ
  | LEQ

/-- The operator chosen by `compare` for a value and a kind (the
`match` at the top of the default `compare` method). -/
def op_for (v : SqlVal) : SQLComp → String
  | .EQ => op_eq v
  | .NEQ => op_neq v
  | .GT => op_gt v
  | .LT => op_lt v
  | .GEQ => op_geq v
  | .LEQ => op_leq v

/-- Embeds the default `compare` method: operator, space, literal. -/
def sql_compare (v : SqlVal) (cmp : SQLComp) : String :=
  op_for v cmp ++ " " ++ to_sql v

/-- Embeds `SQLFilter`: a column name, a renderable value, a kind. -/
structure SQLFilter where
  column : String
  filter : SqlVal
  cmp : SQLComp

/-- Embeds `apply_filter`: the column verbatim, a space, then the
result of `compare`. -/
def apply_filter (f : SQLFilter) : String :=
  f.column ++ " " ++ sql_compare f.filter f.cmp

/-- Embeds `SQLable`: table name, optional projection, optional
predicate list (the source stores boxed `Filter` objects; the only
impl is `SQLFilter`, so we store those). -/
structure SQLable where
  table : String
  cols : Option (List String)
  filter : Option (List SQLFilter)

/-- The column-printing loop of `prepare_select`: each column is
snake-cased and a comma is appended except after the last column. -/
def select_cols (M : CharModel) : List String → String
  | [] => ""
  | [c] => snake_case_str M c
  | c :: rest => snake_case_str M c ++ "," ++ select_cols M rest

/-- Embeds `prepare_select`: `*` when the projection is absent or
empty, otherwise the comma-joined snake-cased columns. -/
def prepare_select (M : CharModel) (q : SQLable) : String :=
  match q.cols with
  | none => "*"
  | some cols => if cols.isEmpty then "*" else select_cols M cols

/-- Embeds `prepare_filter`: render every stored predicate in order
(empty when the predicate list is absent). -/
def prepare_filter (q : SQLable) : List String :=
  match q.filter with
  | none => []
  | some fs => fs.map apply_filter

/-- The WHERE loop of `prepare`: two spaces, `AND ` when the index is
positive, the rendered predicate in parentheses, a newline. -/
def where_lines : Nat → List String → String
  | _, [] => ""
  | idx, v :: rest =>
    "  " ++ (if idx > 0 then "AND " else "") ++ "(" ++ v ++ ")" ++ "\n"
      ++ where_lines (idx + 1) rest

/-- Embeds `prepare`: the SELECT section, the FROM section, and the
WHERE section (omitted when there are no rendered predicates). -/
def prepare (M : CharModel) (q : SQLable) : String :=
  let sel := "SELECT\n  " ++ prepare_select M q ++ "\n"
  let frm := "FROM " ++ q.table ++ "\n"
  let f := prepare_filter q
  let whr := if f.isEmpty then "" else "WHERE\n" ++ where_lines 0 f
  sel ++ frm ++ whr

/-! Spec-side formulations, named `*_spec`, written from the spec's
words so the code definitions above can be proved to refine them. -/

/-- Modelled from the spec: join strings with commas, no trailing
comma and no space after commas. -/
def comma_join : List String → String
  | [] => ""
  | [c] => c
  | c :: rest => c ++ "," ++ comma_join rest

/-- Concatenation of a list of strings. -/
def concat_all : List String → String
  | [] => ""
  | x :: xs => x ++ concat_all xs

/-- Modelled from the spec: the WHERE section is empty for no
predicates; otherwise `WHERE` and a newline, then the first predicate
line with no keyword prefix, then one `AND `-prefixed line per later
predicate. -/
def where_spec : List String → String
  | [] => ""
  | p :: rest =>
    "WHERE\n" ++ ("  " ++ "(" ++ p ++ ")" ++ "\n")
      ++ concat_all (rest.map fun q => "  " ++ "AND " ++ "(" ++ q ++ ")" ++ "\n")

/-- Modelled from the spec: the full rendered query, sections in fixed
order, `*` for an absent or empty projection. -/
def prepare_spec (M : CharModel) (q : SQLable) : String :=
  let cols :=
    match q.cols with
    | none => "*"
    | some [] => "*"
    | some cs => comma_join (cs.map (snake_case_str M))
  "SELECT\n  " ++ cols ++ "\n" ++ ("FROM " ++ q.table ++ "\n")
    ++ where_spec (prepare_filter q)

/-- Modelled from the spec: pair every character with its predecessor
(the first character's predecessor is `'_'`), insert an underscore
exactly before an uppercase character whose predecessor is lowercase,
and replace each character by its lowercase expansion. -/
def snake_case_spec (M : CharModel) (s : List Nat) : List Nat :=
  (List.zip (underscore :: s) s).flatMap fun p =>
    (if M.is_uppercase p.2 && M.is_lowercase p.1 then [underscore] else [])
      ++ M.to_lowercase p.2

/-- A character is inert for a model: not uppercase, and its lowercase
expansion is itself.  Every character `snake_case` emits is inert when
the model's lowercase images are inert and the underscore is inert,
which gives idempotence. -/
def inert (M : CharModel) (c : Nat) : Prop :=
  M.is_uppercase c = false ∧ M.to_lowercase c = [c]

/-! Helper lemmas. -/

theorem select_cols_eq (M : CharModel) :
    ∀ cs : List String, select_cols M cs = comma_join (cs.map (snake_case_str M))
  | [] => rfl
  | [_] => rfl
  | _ :: c :: rest => by
    simp only [select_cols, List.map, comma_join]
    rw [select_cols_eq M (c :: rest)]
    simp [comma_join]

theorem where_lines_pos :
    ∀ (l : List String) (k : Nat),
      where_lines (k + 1) l
        = concat_all (l.map fun q => "  " ++ "AND " ++ "(" ++ q ++ ")" ++ "\n")
  | [], _ => rfl
  | v :: rest, k => by
    simp only [where_lines, List.map, concat_all, where_lines_pos rest (k + 1)]
    simp [String.append_assoc]

theorem prepare_eq_spec (M : CharModel) (q : SQLable) :
    prepare M q = prepare_spec M q := by
  unfold prepare prepare_spec prepare_select
  cases hc : q.cols with
  | none =>
    cases hf : prepare_filter q with
    | nil => simp [where_spec, where_lines, String.append_empty]
    | cons p rest =>
      simp only [List.isEmpty_cons, if_neg, Bool.false_eq_true, not_false_iff, if_false,
        where_spec, where_lines, where_lines_pos]
      simp [String.append_assoc, String.empty_append]
  | some cols =>
    cases cols with
    | nil =>
      cases hf : prepare_filter q with
      | nil => simp [where_spec, where_lines, String.append_empty]
      | cons p rest =>
        simp only [List.isEmpty_nil, if_pos, where_spec, where_lines, where_lines_pos,
          List.isEmpty_cons, Bool.false_eq_true, not_false_iff, if_false]
        simp [String.append_assoc, String.empty_append]
    | cons c cs =>
      cases hf : prepare_filter q with
      | nil =>
        simp [where_spec, where_lines, String.append_empty, select_cols_eq]
      | cons p rest =>
        simp only [List.isEmpty_cons, Bool.false_eq_true, not_false_iff, if_false,
          where_spec, where_lines, where_lines_pos, select_cols_eq]
        simp [String.append_assoc, String.empty_append]

theorem snake_case_loop_eq_spec (M : CharModel) :
    ∀ (s : List Nat) (p : Nat),
      snake_case_loop M p s
        = (List.zip (p :: s) s).flatMap fun q =>
            (if M.is_uppercase q.2 && M.is_lowercase q.1 then [underscore] else [])
              ++ M.to_lowercase q.2
  | [], _ => rfl
  | c :: rest, p => by
    simp only [snake_case_loop, List.zip_cons_cons, List.flatMap_cons,
      snake_case_loop_eq_spec M rest c]

theorem snake_case_loop_inert (M : CharModel)
    (h1 : ∀ c d, d ∈ M.to_lowercase c → M.is_uppercase d = false)
    (h2 : ∀ c d, d ∈ M.to_lowercase c → M.to_lowercase d = [d])
    (h3 : M.is_uppercase underscore = false)
    (h4 : M.to_lowercase underscore = [underscore]) :
    ∀ (s : List Nat) (p : Nat), ∀ d ∈ snake_case_loop M p s, inert M d
  | [], _ => by intro d hd; cases hd
  | c :: rest, p => by
    intro d hd
    simp only [snake_case_loop, List.mem_append] at hd
    rcases hd with (hd | hd) | hd
    · by_cases hcond : (M.is_uppercase c && M.is_lowercase p) = true
      · simp only [hcond, if_pos, List.mem_singleton] at hd
        exact hd ▸ ⟨h3, h4⟩
      · simp only [hcond, if_neg, Bool.false_eq_true, not_false_iff,
          List.not_mem_nil] at hd
    · exact ⟨h1 c d hd, h2 c d hd⟩
    · exact snake_case_loop_inert M h1 h2 h3 h4 rest c d hd

theorem snake_case_loop_fixed (M : CharModel) :
    ∀ (s : List Nat) (p : Nat), (∀ d ∈ s, inert M d) → snake_case_loop M p s = s
  | [], _, _ => rfl
  | c :: rest, p, h => by
    have hc : inert M c := h c (List.mem_cons_self c rest)
    simp only [snake_case_loop, hc.1, Bool.false_and, if_neg, hc.2,
      Bool.false_eq_true, not_false_iff, List.nil_append, List.singleton_append]
    rw [snake_case_loop_fixed M rest c fun d hd => h d (List.mem_cons_of_mem c hd)]

theorem ascii_lower_not_upper :
    ∀ c d, d ∈ ascii.to_lowercase c → ascii.is_uppercase d = false := by
  intro c d hd
  simp only [ascii] at hd ⊢
  by_cases hc : 65 ≤ c ∧ c ≤ 90
  · simp [hc] at hd; subst hd; simp; omega
  · simp [hc] at hd; subst hd; simp; omega

theorem ascii_lower_fixed :
    ∀ c d, d ∈ ascii.to_lowercase c → ascii.to_lowercase d = [d] := by
  intro c d hd
  simp only [ascii] at hd ⊢
  by_cases hc : 65 ≤ c ∧ c ≤ 90
  · simp [hc] at hd; subst hd
    rw [if_neg]; omega
  · simp [hc] at hd; subst hd
    rw [if_neg]; exact hc

theorem to_sql_list_eq_map : ∀ l : List SqlVal, to_sql_list l = l.map to_sql
  | [] => rfl
  | v :: rest => by simp only [to_sql_list, List.map, to_sql_list_eq_map rest]

/-! The claims. -/

/-- C1: for every collection value, the equals operator is `IN` when
the collection has more than one element and `=` otherwise (including
the empty collection); not-equals is `NOT IN` when more than one
element and `<>` otherwise; and the four ordering kinds always yield
`>`, `<`, `>=`, `<=` regardless of the number of elements. -/
theorem claim_C1 (l : List SqlVal) :
    op_eq (.vec l) = (if 1 < l.length then "IN" else "=")
      ∧ op_neq (.vec l) = (if 1 < l.length then "NOT IN" else "<>")
      ∧ op_gt (.vec l) = ">" ∧ op_lt (.vec l) = "<"
      ∧ op_geq (.vec l) = ">=" ∧ op_leq (.vec l) = "<=" := by
  refine ⟨?_, ?_, rfl, rfl, rfl, rfl⟩ <;> simp [op_eq, op_neq]

/-- C2: for every assembler (and every character model), `prepare`
returns exactly the `SELECT` section (`*` for an absent or empty
projection, otherwise the comma-joined normalized column names), the
`FROM` section with the table name verbatim, and — only when the
predicate list is present and non-empty — a `WHERE` section with one
line per predicate in insertion order, two leading spaces, `AND ` on
every line after the first, the predicate in parentheses, and a
newline; in particular the assembler with table `tbl`, no projection
and no predicates renders exactly the three-line `SELECT * FROM tbl`
text. -/
theorem claim_C2 :
    (∀ (M : CharModel) (q : SQLable), prepare M q = prepare_spec M q)
      ∧ prepare ascii ⟨"tbl", none, none⟩ = "SELECT\n  *\nFROM tbl\n" :=
  ⟨prepare_eq_spec, by decide⟩

/-- C3: an absent optional value renders as `NULL` with equals `IS`
and not-equals `IS NOT`; a present optional value renders as the
wrapped value's literal with equals `=` and not-equals `<>`; the four
ordering operators ignore presence; and the predicate with column
`d`, kind not-equals and an absent value renders as `d IS NOT NULL`. -/
theorem claim_C3 :
    to_sql (.opt none) = "NULL"
      ∧ op_eq (.opt none) = "IS" ∧ op_neq (.opt none) = "IS NOT"
      ∧ (∀ v, to_sql (.opt (some v)) = to_sql v)
      ∧ (∀ v, op_eq (.opt (some v)) = "=")
      ∧ (∀ v, op_neq (.opt (some v)) = "<>")
      ∧ (∀ o, op_gt (.opt o) = ">" ∧ op_lt (.opt o) = "<"
          ∧ op_geq (.opt o) = ">=" ∧ op_leq (.opt o) = "<=")
      ∧ apply_filter ⟨"d", .opt none, .NEQ⟩ = "d IS NOT NULL" := by
  refine ⟨rfl, rfl, rfl, fun v => rfl, fun v => rfl, fun v => rfl,
    fun o => ⟨rfl, rfl, rfl, rfl⟩, by decide⟩

/-- C4: a one-element collection renders as the bare literal of its
element, a collection of more than one element renders as the
comma-joined element literals wrapped in parentheses, and the empty
collection renders as the empty parenthesized list, with no error. -/
theorem claim_C4 :
    (∀ v, to_sql (.vec [v]) = to_sql v)
      ∧ (∀ l : List SqlVal, 1 < l.length →
          to_sql (.vec l) = "(" ++ String.intercalate "," (l.map to_sql) ++ ")")
      ∧ to_sql (.vec []) = "()" := by
  refine ⟨fun v => rfl, ?_, by decide⟩
  intro l hl
  match l, hl with
  | a :: b :: rest, _ =>
    simp only [to_sql, to_sql_list_eq_map, vec_render, List.map]

/-- Witness for C4 at the collections of zero, one and three
integers. -/
theorem claim_C4_witness :
    to_sql (.vec [.int 7]) = "7"
      ∧ to_sql (.vec [.int 1, .int 2, .int 3]) = "(1,2,3)"
      ∧ to_sql (.vec []) = "()" :=
  ⟨claim_C4.1 (.int 7),
   (claim_C4.2.1 [.int 1, .int 2, .int 3] (by decide)).trans (by decide),
   claim_C4.2.2⟩

/-- C5: `snake_case` processes characters left to right, inserting an
underscore exactly before each uppercase character whose immediately
preceding input character was lowercase and replacing every character
by its lowercase expansion (the refinement to `snake_case_spec`); the
first character never receives a leading underscore; and on the ASCII
model `UserID` maps to `user_id` and `alreadySnake_case` to
`already_snake_case`. -/
theorem claim_C5 :
    (∀ (M : CharModel) (s : List Nat), snake_case M s = snake_case_spec M s)
      ∧ (∀ (c : Nat) (s : List Nat),
          snake_case ascii (c :: s) = ascii.to_lowercase c ++ snake_case_loop ascii c s)
      ∧ snake_case_str ascii "UserID" = "user_id"
      ∧ snake_case_str ascii "alreadySnake_case" = "already_snake_case" := by
  refine ⟨fun M s => snake_case_loop_eq_spec M s underscore, ?_, by decide, by decide⟩
  intro c s
  simp [snake_case, snake_case_loop, ascii, underscore]

/-- C6: a rendered predicate is the column name, the operator and the
literal separated by single spaces, with the column used verbatim —
the column `UserID` stays `UserID` and is not normalized. -/
theorem claim_C6 :
    (∀ f : SQLFilter,
        apply_filter f = f.column ++ " " ++ op_for f.filter f.cmp ++ " " ++ to_sql f.filter)
      ∧ apply_filter ⟨"UserID", .int 1, .EQ⟩ = "UserID = 1"
      ∧ apply_filter ⟨"UserID", .int 1, .EQ⟩ ≠ "user_id = 1" := by
  refine ⟨fun f => ?_, by decide, by decide⟩
  simp [apply_filter, sql_compare, String.append_assoc]

/-- C7: a text value renders as a single quote, the string unchanged
(no escaping of embedded quotes), and a closing single quote; the
input containing an embedded quote renders with that quote kept
as-is. -/
theorem claim_C7 :
    (∀ s : String, to_sql (.str s) = squote ++ s ++ squote)
      ∧ to_sql (.str ("O" ++ squote ++ "Brien"))
          = squote ++ "O" ++ squote ++ "Brien" ++ squote :=
  ⟨fun s => rfl, by decide⟩

/-- C8: dates and date-times render as the quoted `YYYY-MM-DD` form of
the date component, so the time of day is discarded and two date-times
on the same calendar day render identically, and all six comparison
kinds map to the standard scalar operators. -/
theorem claim_C8 :
    (∀ d : CalDate, to_sql (.date d) = quote (format_ymd d))
      ∧ (∀ t : CalDateTime, to_sql (.datetime t) = quote (format_ymd t.date))
      ∧ (∀ t1 t2 : CalDateTime, t1.date = t2.date →
          to_sql (.datetime t1) = to_sql (.datetime t2))
      ∧ to_sql (.date ⟨2024, 3, 7⟩) = squote ++ "2024-03-07" ++ squote
      ∧ (∀ (d : CalDate) (t : CalDateTime),
          op_eq (.date d) = "=" ∧ op_neq (.date d) = "<>"
            ∧ op_gt (.date d) = ">" ∧ op_lt (.date d) = "<"
            ∧ op_geq (.date d) = ">=" ∧ op_leq (.date d) = "<="
            ∧ op_eq (.datetime t) = "=" ∧ op_neq (.datetime t) = "<>"
            ∧ op_gt (.datetime t) = ">" ∧ op_lt (.datetime t) = "<"
            ∧ op_geq (.datetime t) = ">=" ∧ op_leq (.datetime t) = "<=") := by
  refine ⟨fun d => rfl, fun t => rfl, ?_, by decide, ?_⟩
  · intro t1 t2 h
    simp only [to_sql, h]
  · intro d t
    exact ⟨rfl, rfl, rfl, rfl, rfl, rfl, rfl, rfl, rfl, rfl, rfl, rfl⟩

/-- Witness for C8: two date-times on 2024-03-07 at different times of
day render to the same literal. -/
theorem claim_C8_witness :
    to_sql (.datetime ⟨⟨2024, 3, 7⟩, 1, 2, 3⟩)
      = to_sql (.datetime ⟨⟨2024, 3, 7⟩, 23, 59, 58⟩) :=
  claim_C8.2.2.1 ⟨⟨2024, 3, 7⟩, 1, 2, 3⟩ ⟨⟨2024, 3, 7⟩, 23, 59, 58⟩ rfl

/-- C9: the identifier normalizer is idempotent, for every character
model whose lowercase expansions produce only characters that are not
uppercase and are fixed by lowercasing, and whose underscore is such a
character (true of the Unicode tables the source relies on and of the
ASCII model here). -/
theorem claim_C9 (M : CharModel)
    (h1 : ∀ c d, d ∈ M.to_lowercase c → M.is_uppercase d = false)
    (h2 : ∀ c d, d ∈ M.to_lowercase c → M.to_lowercase d = [d])
    (h3 : M.is_uppercase underscore = false)
    (h4 : M.to_lowercase underscore = [underscore])
    (s : List Nat) :
    snake_case M (snake_case M s) = snake_case M s :=
  snake_case_loop_fixed M (snake_case M s) underscore
    (snake_case_loop_inert M h1 h2 h3 h4 s underscore)

/-- Witness for C9: idempotence on the ASCII model at `UserID`. -/
theorem claim_C9_witness :
    snake_case ascii (snake_case ascii (str_codes "UserID"))
      = snake_case ascii (str_codes "UserID") :=
  claim_C9 ascii ascii_lower_not_upper ascii_lower_fixed (by decide) (by decide)
    (str_codes "UserID")

/-- C10: a present optional value keeps the default operators — equals
is `=` and not-equals is `<>` — and does not delegate to the wrapped
value's overrides, even when that value is a multi-element collection
whose own equals operator would be `IN`; the predicate on column `e`
with value `Some([1,2])` and kind equals renders with operator `=` and
the parenthesized literal. -/
theorem claim_C10 :
    (∀ v, op_eq (.opt (some v)) = "=")
      ∧ (∀ v, op_neq (.opt (some v)) = "<>")
      ∧ op_eq (.vec [.int 1, .int 2]) = "IN"
      ∧ op_eq (.opt (some (.vec [.int 1, .int 2]))) = "="
      ∧ to_sql (.opt (some (.vec [.int 1, .int 2]))) = "(1,2)"
      ∧ apply_filter ⟨"e", .opt (some (.vec [.int 1, .int 2])), .EQ⟩ = "e = (1,2)" :=
  ⟨fun v => rfl, fun v => rfl, by decide, rfl, by decide, by decide⟩
